import Mathlib

/-!
Verification development for the LexiGuard sanctions-screening engine.

Shallow embedding of the Python sources:
  * `app/config.py`            — configuration constants
  * `app/risk/scorer.py`       — `RiskScorer` (composite risk scoring)
  * `app/media/rss.py`         — `MediaIngester.tag_content` and `search_media`
  * `app/match/matcher.py`     — `fuzzy_match` (fuzzy matching with SQL fallback)
  * `app/ingest/ofac_loader.py`— `_clean_name` / `normalize_and_store`
  * `app/ui/app_streamlit.py`  — `perform_screening` (the orchestrator)
  * `app/audit/logger.py`      — `AuditLogger`

Machine reals are modelled by exact rationals (`ℚ`); Python's `round` is
modelled by round-half-to-even over the exact value.  Wall-clock values
(`datetime.utcnow`, SQL `CURRENT_TIMESTAMP`) are passed in explicitly, and a
media item's publication date is abstracted to the day difference from "now",
which is the only quantity the source derives from it.  External collaborators
(the `rapidfuzz` scorer, the network fetch behind `ensure_db`) are parameters
of the functions that call them.  SQLite tables are explicit lists threaded
through the functions; a `SELECT` without `ORDER BY` is read in rowid
(insertion) order, as SQLite produces for these plain table scans.
-/

namespace LexiGuard

/-! ### app/config.py -/

/-- `RISK_THRESHOLDS["HIGH"]` in `app/config.py`. -/
def riskThresholdHigh : ℚ := 75

/-- `RISK_THRESHOLDS["MEDIUM"]` in `app/config.py`. -/
def riskThresholdMedium : ℚ := 40

/-- `RISK_WEIGHTS["sanctions_match"]` in `app/config.py`. -/
def weightSanctions : ℚ := 6/10

/-- `RISK_WEIGHTS["adverse_media"]` in `app/config.py`. -/
def weightMedia : ℚ := 3/10

/-- `RISK_WEIGHTS["pep_flag"]` in `app/config.py`. -/
def weightPep : ℚ := 1/10

/-- `MEDIA_RECENCY_FACTOR` in `app/config.py` (days). -/
def mediaRecencyFactor : ℚ := 30

/-! ### Python `round`

Python's built-in `round` rounds half to even.  `pyRoundInt` is that rounding
over the exact rational value, and `round2` is `round(x, 2)`. -/

/-- Round half to even, as Python's built-in `round(x)`: take the floor when
the fractional part is below 1/2, the ceiling when above, and the even
neighbour on an exact half. -/
def pyRoundInt (x : ℚ) : ℤ :=
  if x - ⌊x⌋ < 1/2 then ⌊x⌋
  else if 1/2 < x - ⌊x⌋ then ⌊x⌋ + 1
  else if 2 ∣ ⌊x⌋ then ⌊x⌋ else ⌊x⌋ + 1

/-- Python's `round(x, 2)` over the exact rational value. -/
def round2 (x : ℚ) : ℚ := (pyRoundInt (100 * x) : ℚ) / 100

/-! ### app/risk/scorer.py -/

/-- The publication-date information `_recency_decay` extracts from a media
item: the `published_date` string may be absent/empty (Python falsy),
unparseable (the `except` branch of `_recency_decay`), or parse to a date
`d` days before the current UTC time (`(datetime.utcnow() - pub_date).days`,
negative for future dates).  The ISO-8601 parsing and datetime subtraction
are abstracted to this day difference. -/
inductive PubDate where
  | missing
  | unparseable
  | daysOld (d : ℤ)
deriving DecidableEq, Repr

/-- `RiskScorer._recency_decay`. -/
def recencyDecay : PubDate → ℚ
  | .missing => 1/2
  | .unparseable => 1/2
  | .daysOld d => max (1/10) (min 1 (1 - (d : ℚ) / mediaRecencyFactor))

/-- A media item as consumed by `RiskScorer._score_media`: the scorer reads
only `media.get("tags", [])` and `media.get("published_date")`. -/
structure MediaItem where
  tags : List String
  published : PubDate
deriving DecidableEq, Repr

/-- `high_risk_tags` in `RiskScorer._score_media`. -/
def highRiskTags : List String := ["sanctions", "crime", "fraud"]

/-- The `base_score` of one media item in `RiskScorer._score_media`:
30, boosted to 50 when any tag is in `high_risk_tags`. -/
def mediaBase (m : MediaItem) : ℚ :=
  if m.tags.any (fun tag => highRiskTags.contains tag) then 50 else 30

/-- `RiskScorer._score_media`: the accumulation loop
`score += base_score * recency_factor` followed by
`min(100, score / len(media_items))`; the empty list returns 0. -/
def scoreMedia (items : List MediaItem) : ℚ :=
  match items with
  | [] => 0
  | _ :: _ =>
      min 100 ((items.map (fun m => mediaBase m * recencyDecay m.published)).sum
        / (items.length : ℚ))

/-- A sanctions match dict as built by `perform_screening` in
`app/ui/app_streamlit.py` (keys `entity_name`, `country`, `match_score`,
`explanation`); `RiskScorer._score_sanctions` reads `m["match_score"]`. -/
structure MatchCandidate where
  entity_name : String
  country : String
  match_score : ℕ
  explanation : String
deriving DecidableEq, Repr

/-- `RiskScorer._score_sanctions`: 0 for the empty list, otherwise
`max(m["match_score"] for m in matches)`. -/
def scoreSanctions (ms : List MatchCandidate) : ℚ :=
  match (ms.map (fun m => m.match_score)).max? with
  | none => 0
  | some b => (b : ℚ)

/-- `RiskScorer._determine_risk_level`. -/
def determineRiskLevel (score : ℚ) : String :=
  if riskThresholdHigh ≤ score then "HIGH"
  else if riskThresholdMedium ≤ score then "MEDIUM"
  else "LOW"

/-- One `{"weight": w, "score": s}` pair of the scorer's breakdown. -/
structure WeightScore where
  weight : ℚ
  score : ℚ
deriving DecidableEq, Repr

/-- A value in one of the result dicts the sources build: a number, a string,
or the three-entry breakdown sub-dict keyed `sanctions`/`media`/`pep`. -/
inductive JVal where
  | num (v : ℚ)
  | str (v : String)
  | brk (sanctions media pep : WeightScore)
deriving DecidableEq, Repr

/-- A Python dict with string keys, as an association list in key-insertion
order. -/
abbrev JDict := List (String × JVal)

/-- Numeric field access `d[k]` (0 when absent; the sources only read keys
they put there). -/
def jnum (d : JDict) (k : String) : ℚ :=
  match d.lookup k with
  | some (.num v) => v
  | _ => 0

/-- String field access `d[k]` ("" when absent). -/
def jstr (d : JDict) (k : String) : String :=
  match d.lookup k with
  | some (.str v) => v
  | _ => ""

/-- The clamped weighted sum `min(100, max(0, s*0.6 + m*0.3 + p*0.1))`
computed by `RiskScorer.score_screening` before rounding. -/
def compositeRaw (ms : List MatchCandidate) (media : List MediaItem)
    (pep_flag : Bool) : ℚ :=
  min 100 (max 0
    (scoreSanctions ms * weightSanctions
      + scoreMedia media * weightMedia
      + (if pep_flag then (20 : ℚ) else 0) * weightPep))

/-- `RiskScorer.score_screening`: the result dict with its breakdown. -/
def scoreScreening (ms : List MatchCandidate) (media : List MediaItem)
    (pep_flag : Bool) : JDict :=
  let sanctions_score := scoreSanctions ms
  let media_score := scoreMedia media
  let pep_score : ℚ := if pep_flag then 20 else 0
  let composite_score := compositeRaw ms media pep_flag
  [("composite_score", .num (round2 composite_score)),
   ("risk_level", .str (determineRiskLevel composite_score)),
   ("sanctions_score", .num (round2 sanctions_score)),
   ("media_score", .num (round2 media_score)),
   ("pep_score", .num (round2 pep_score)),
   ("breakdown", .brk
      ⟨weightSanctions, round2 sanctions_score⟩
      ⟨weightMedia, round2 media_score⟩
      ⟨weightPep, round2 pep_score⟩)]

/-- Breakdown access: the three `{weight, score}` pairs of `d["breakdown"]`. -/
def jbrk (d : JDict) : WeightScore × WeightScore × WeightScore :=
  match d.lookup "breakdown" with
  | some (.brk a b c) => (a, b, c)
  | _ => (⟨0, 0⟩, ⟨0, 0⟩, ⟨0, 0⟩)

/-! ### String utilities shared by the embeddings

Python string semantics over ASCII data: `strip`, substring containment
(SQL `LIKE '%x%'`), and regex word boundaries. -/

/-- Python `\s` / `str.strip` whitespace (ASCII fragment). -/
def isPySpace (c : Char) : Bool :=
  c = ' ' || c = '\t' || c = '\n' || c = '\r' || c = '\x0b' || c = '\x0c'

/-- Drop leading and trailing whitespace from a character list. -/
def stripChars (l : List Char) : List Char :=
  ((l.dropWhile isPySpace).reverse.dropWhile isPySpace).reverse

/-- Python `str.strip()`. -/
def pyStrip (s : String) : String := String.mk (stripChars s.toList)

/-- Per-character upper-casing: Python `str.upper()` / SQLite `UPPER`
(ASCII fragment). -/
def pyUpper (s : String) : String := String.mk (s.toList.map Char.toUpper)

/-- Per-character lower-casing: Python `str.lower()` (ASCII fragment). -/
def pyLower (s : String) : String := String.mk (s.toList.map Char.toLower)

/-- `needle` occurs as a contiguous substring of `hay`
(SQL `hay LIKE '%needle%'`, Python `needle in hay`). -/
def containsSub (hay needle : String) : Bool :=
  hay.toList.tails.any (fun t => needle.toList.isPrefixOf t)

/-! ### app/media/rss.py -/

/-- Python regex `\w` (ASCII fragment; the keyword lists and the texts this
development evaluates on are ASCII). -/
def isWordChar (c : Char) : Bool := c.isAlphanum || c = '_'

/-- `kw` occurs at the head of `s` with a `\b` boundary on each side;
`prev` is the character just before this position (`none` at the start of
the text).  All keywords in `MediaIngester.keywords` consist of word
characters only, so `\b` demands a non-word character (or the text edge)
on each side of the occurrence. -/
def boundaryHere (kw s : List Char) (prev : Option Char) : Bool :=
  (match prev with
   | none => true
   | some c => !(isWordChar c)) &&
  kw.isPrefixOf s &&
  (match s.drop kw.length with
   | [] => true
   | c :: _ => !(isWordChar c))

/-- Scan of `re.search(rf"\b{keyword}\b", text)`: try every position. -/
def boundaryScan (kw : List Char) : Option Char → List Char → Bool
  | prev, [] => boundaryHere kw [] prev
  | prev, c :: rest => boundaryHere kw (c :: rest) prev || boundaryScan kw (some c) rest

/-- `re.search(rf"\b{keyword}\b", full_text)` is not `None`. -/
def wordBoundaryHit (kw : String) (text : String) : Bool :=
  boundaryScan kw.toList none text.toList

/-- `MediaIngester.__init__`'s `self.keywords`, in dict insertion order. -/
def mediaKeywords : List (String × List String) :=
  [("sanctions", ["sanctions", "embargo", "blocked", "SDN", "OFAC", "restricted"]),
   ("pep", ["government", "official", "minister", "diplomat", "president"]),
   ("fraud", ["fraud", "embezzlement", "forgery", "scheme", "scam"]),
   ("crime", ["arrest", "convicted", "charged", "indictment", "crime", "criminal"])]

/-- The `full_text` of `MediaIngester.tag_content`:
`f"{title} {content}".lower()`. -/
def fullTextOf (title content : String) : String :=
  pyLower (title ++ " " ++ content)

/-- `MediaIngester.tag_content`: for each category, the inner keyword loop
appends the category on the first word-boundary hit; zero hits yield
`["other"]`. -/
def tagContent (title content : String) : List String :=
  let full_text := fullTextOf title content
  let tags := (mediaKeywords.filter
    (fun p => p.2.any (fun kw => wordBoundaryHit kw full_text))).map Prod.fst
  if tags = [] then ["other"] else tags

/-- A row of the `adverse_media` table, as the dicts `search_media` returns
(`published_date` is the stored string; `tags` is the comma-joined list as
split back by `search_media`). -/
structure MediaRow where
  id : String
  source : String
  title : String
  content : String
  url : String
  published_date : String
  tags : List String
deriving DecidableEq, Repr

/-- SQLite `LIKE '%pat%'` with its default ASCII case folding. -/
def likeCI (hay pat : String) : Bool := containsSub (pyUpper hay) (pyUpper pat)

/-- `MediaIngester.search_media`: rows whose title or content matches
`%query_name%`, ordered by `published_date` (string order) descending,
capped at 20. -/
def searchMedia (mstore : List MediaRow) (query_name : String) : List MediaRow :=
  ((mstore.filter (fun m => likeCI m.title query_name || likeCI m.content query_name)).insertionSort
    (fun a b => b.published_date ≤ a.published_date)).take 20

/-! ### app/match/matcher.py

The `sanctions_entities` table is an explicit list of rows; `rapidfuzz`'s
`fuzz.token_set_ratio` is an external collaborator and enters as a function
parameter `tsr` (its values are integers 0–100; `int(score)` is absorbed
into the `ℕ` codomain).  `OFACLoader.ensure_db` performs a network
fetch-and-replace; the table contents it would leave behind enter as the
parameter `healed`. -/

/-- A row of the `sanctions_entities` table. -/
structure Entity where
  name : String
  program : String
  sdn_type : String
  dob : String
  country : String
  citizenship : String
  nationality : String
  remarks : String
deriving DecidableEq, Repr

/-- The country filter is active when `country and country.strip().upper() != "ANY"`. -/
def countryActive (country : Option String) : Bool :=
  match country with
  | none => false
  | some c => c ≠ "" && pyUpper (pyStrip c) ≠ "ANY"

/-- `_fetch_rows`: `SELECT name, country FROM sanctions_entities WHERE
name <> ''` with `AND UPPER(country)=?` when the filter is active. -/
def fetchRows (store : List Entity) (country : Option String) : List (String × String) :=
  match country with
  | some c =>
      if c ≠ "" && pyUpper (pyStrip c) ≠ "ANY" then
        (store.filter (fun e => e.name ≠ "" && pyUpper e.country = pyUpper (pyStrip c))).map
          (fun e => (e.name, e.country))
      else
        (store.filter (fun e => e.name ≠ "")).map (fun e => (e.name, e.country))
  | none => (store.filter (fun e => e.name ≠ "")).map (fun e => (e.name, e.country))

/-- The database contents after the self-heal branch of `fuzzy_match`:
`OFACLoader.ensure_db` rebuilds the table (to `healed`) exactly when the
first fetch came back empty. -/
def matcherDb (store healed : List Entity) (country : Option String) : List Entity :=
  if fetchRows store country = [] then healed else store

/-- The candidate rows `fuzzy_match` ranks (after the possible self-heal). -/
def matcherRows (store healed : List Entity) (country : Option String) :
    List (String × String) :=
  fetchRows (matcherDb store healed country) country

/-- `process.extract(q, names, scorer=fuzz.token_set_ratio, limit=max(top_n, 10))`:
every name scored against `q`, sorted by score descending (ties by original
index), truncated to the limit.  Entries are `(match_name, score, idx)`. -/
def extractRanked (tsr : String → String → ℕ) (q : String) (names : List String)
    (limit : ℕ) : List (String × ℕ × ℕ) :=
  ((names.enum.map (fun p => (p.2, tsr q p.2, p.1))).insertionSort
    (fun a b => b.2.1 ≤ a.2.1)).take limit

/-- The result-collection loop of `fuzzy_match`: append a
`{"name", "score", "country"}` dict when `score >= threshold`, and break as
soon as `len(results) >= top_n`. -/
def rankLoop (rows : List (String × String)) (threshold top_n : ℕ) :
    List (String × ℕ × ℕ) → List JDict → List JDict
  | [], acc => acc
  | e :: rest, acc =>
      let acc2 :=
        if threshold ≤ e.2.1 then
          acc ++ [[("name", JVal.str e.1), ("score", JVal.num (e.2.1 : ℚ)),
                   ("country", JVal.str ((rows.getD e.2.2 ("", "")).2))]]
        else acc
      if top_n ≤ acc2.length then acc2 else rankLoop rows threshold top_n rest acc2

/-- The RapidFuzz ranking stage of `fuzzy_match` (its `results` list right
before the SQL fallback is considered). -/
def matcherRanked (tsr : String → String → ℕ) (store healed : List Entity)
    (name_query : String) (country : Option String) (top_n threshold : ℕ) :
    List JDict :=
  let q := pyUpper (pyStrip name_query)
  let rows := matcherRows store healed country
  rankLoop rows threshold top_n (extractRanked tsr q (rows.map Prod.fst) (max top_n 10)) []

/-- The SQL fallback of `fuzzy_match`:
`SELECT name, country FROM sanctions_entities WHERE UPPER(name) LIKE '%q%'
[AND UPPER(country)=?] LIMIT top_n` (no `name <> ''` filter here). -/
def sqlLikeFallback (db : List Entity) (q : String) (country : Option String)
    (top_n : ℕ) : List (String × String) :=
  match country with
  | some c =>
      if c ≠ "" && pyUpper (pyStrip c) ≠ "ANY" then
        ((db.filter (fun e => containsSub (pyUpper e.name) q
            && pyUpper e.country = pyUpper (pyStrip c))).map
          (fun e => (e.name, e.country))).take top_n
      else
        ((db.filter (fun e => containsSub (pyUpper e.name) q)).map
          (fun e => (e.name, e.country))).take top_n
  | none =>
      ((db.filter (fun e => containsSub (pyUpper e.name) q)).map
        (fun e => (e.name, e.country))).take top_n

/-- The dict `{"name": nm, "score": 100, "country": ctry or ""}` built for
one SQL-fallback row. -/
def fallbackDict (rc : String × String) : JDict :=
  [("name", JVal.str rc.1), ("score", JVal.num 100), ("country", JVal.str rc.2)]

/-- `fuzzy_match` in `app/match/matcher.py`. -/
def fuzzyMatch (tsr : String → String → ℕ) (store healed : List Entity)
    (name_query : String) (country : Option String) (top_n threshold : ℕ) :
    List JDict :=
  if pyStrip name_query = "" then []
  else
    let q := pyUpper (pyStrip name_query)
    let rows := matcherRows store healed country
    if rows = [] then []
    else
      let results := matcherRanked tsr store healed name_query country top_n threshold
      if results = [] then
        (sqlLikeFallback (matcherDb store healed country) q country top_n).map fallbackDict
      else results

/-! ### app/ingest/ofac_loader.py

`_clean_name` and `normalize_and_store`.  The two regexes of `_clean_name`
are embedded by their matching semantics:
`re.sub(r"^(Secondary sanctions risk:.*?;)\s*", "", s, flags=re.I)` removes a
case-insensitive prefix up to the first `;` (with no newline before it, since
`.` does not cross lines) plus following whitespace, and
`re.search(r"Linked To:\s*([^.;]+)", s, flags=re.I)` yields the group of the
leftmost position where the whole pattern matches, including the one-step
backtracking of `\s*` when the character after the whitespace run is `.`/`;`
or the string ends. -/

/-- Index of the first `;` reachable without crossing a newline. -/
def firstSemiIdx : List Char → Option ℕ
  | [] => none
  | c :: rest =>
      if c = ';' then some 0
      else if c = '\n' then none
      else (firstSemiIdx rest).map (· + 1)

/-- The boilerplate-prefix removal
`re.sub(r"^(Secondary sanctions risk:.*?;)\s*", "", s, flags=re.I)`. -/
def ssrStrip (l : List Char) : List Char :=
  if (l.take 25).map Char.toLower = "secondary sanctions risk:".toList then
    match firstSemiIdx (l.drop 25) with
    | some k => (l.drop (25 + k + 1)).dropWhile isPySpace
    | none => l
  else l

/-- Characters admitted by `[^.;]`. -/
def notDotSemi (c : Char) : Bool := c ≠ '.' && c ≠ ';'

/-- `re.search(r"Linked To:\s*([^.;]+)", s, flags=re.I)`: the captured group
of the leftmost full match, or `none`. -/
def linkedToSearch : List Char → Option (List Char)
  | [] => none
  | c0 :: rest =>
      if ((c0 :: rest).take 10).map Char.toLower = "linked to:".toList then
        let after := (c0 :: rest).drop 10
        let w := after.takeWhile isPySpace
        let r := after.drop w.length
        match r.head? with
        | some c =>
            if notDotSemi c then some (r.takeWhile notDotSemi)
            else
              match w.getLast? with
              | some lw => some [lw]
              | none => linkedToSearch rest
        | none =>
            match w.getLast? with
            | some lw => some [lw]
            | none => linkedToSearch rest
      else linkedToSearch rest

/-- Merge runs of adjacent spaces into one space. -/
def squeezeSpaces : List Char → List Char
  | [] => []
  | [c] => [c]
  | c :: d :: rest =>
      if c = ' ' && d = ' ' then squeezeSpaces (d :: rest)
      else c :: squeezeSpaces (d :: rest)

/-- `re.sub(r"\s+", " ", s)`: each maximal whitespace run becomes one space. -/
def collapseWs (l : List Char) : List Char :=
  squeezeSpaces (l.map (fun c => if isPySpace c then ' ' else c))

/-- `_clean_name` in `app/ingest/ofac_loader.py`. -/
def cleanName (t : String) : String :=
  if t = "" then ""
  else
    let s0 := stripChars t.toList
    let s1 := ssrStrip s0
    let s2 :=
      match linkedToSearch s1 with
      | some g => stripChars g
      | none => s1
    let s3 :=
      if 120 < s2.length && s2.contains ';' then
        let first := stripChars (s2.takeWhile (fun c => c ≠ ';'))
        if 3 ≤ first.length then first else s2
      else s2
    String.mk ((stripChars (collapseWs s3)).map Char.toUpper)

/-- The tabular feed `normalize_and_store` receives: a header row and the
data rows, each cell a string (`dtype=str, keep_default_na=False`). -/
structure Df where
  cols : List String
  rows : List (List String)
deriving DecidableEq, Repr

/-- The header normalization
`str(c).strip().lower().replace(" ", "_").replace("-", "_")`. -/
def headerNorm (c : String) : String :=
  String.mk ((stripChars c.toList).map (fun ch =>
    let lc := ch.toLower
    if lc = ' ' || lc = '-' then '_' else lc))

/-- Cell of `row` under (normalized) column name `c`; "" when the column is
absent. -/
def dfCell (cols : List String) (row : List String) (c : String) : String :=
  match cols.findIdx? (fun x => x = c) with
  | some i => row.getD i ""
  | none => ""

/-- The columns whose (normalized) name contains `"name"`. -/
def nameLikeCols (cols : List String) : List String :=
  cols.filter (fun c => containsSub c "name")

/-- The `best(row)` helper of `normalize_and_store`: longest stripped value
among the name-like columns, first column winning ties. -/
def bestNameLike (cols : List String) (row : List String) (cands : List String) :
    String :=
  cands.foldl (fun best c =>
    let v := pyStrip (dfCell cols row c)
    if best.length < v.length then v else best) ""

/-- The letteriness score of the `lettery(row)` heuristic:
`sum(ch.isalpha() for ch in t) + t.count(",") + t.count("'")`. -/
def letteryScore (t : String) : ℕ :=
  t.toList.foldl (fun n c =>
    n + (if c.isAlpha then 1 else 0) + (if c = ',' then 1 else 0)
      + (if c = '\'' then 1 else 0)) 0

/-- The `lettery(row)` helper: the most lettery cell of the row (first cell
winning ties, starting score −1), stripped. -/
def letteryBest (row : List String) : String :=
  pyStrip (row.foldl (fun (acc : String × ℤ) v =>
    if acc.2 < (letteryScore v : ℤ) then (v, (letteryScore v : ℤ)) else acc)
    ("", -1)).1

/-- The per-row name selection of `normalize_and_store`: the `sdn_name`
column when present, else the best name-like column, else the lettery
heuristic — each stripped and passed through `_clean_name`. -/
def rowName (cols : List String) (row : List String) : String :=
  if cols.contains "sdn_name" then cleanName (pyStrip (dfCell cols row "sdn_name"))
  else
    let nl := nameLikeCols cols
    if nl ≠ [] then cleanName (pyStrip (bestNameLike cols row nl))
    else cleanName (pyStrip (letteryBest row))

/-- The `series(*cands)` helper: the first candidate (after header
normalization) present among the columns, else the all-"" series. -/
def seriesGet (cols : List String) (row : List String) (cands : List String) :
    String :=
  match (cands.map headerNorm).find? (fun c => cols.contains c) with
  | some c => dfCell cols row c
  | none => ""

/-- `normalize_and_store`: the rows inserted into `sanctions_entities`
(`DELETE` then `executemany INSERT` over every row of `norm`; the final
per-column `.str.strip()` is applied to every field).  The Python function
returns `len(norm)`, the length of this list. -/
def normalizeAndStore (df : Df) : List Entity :=
  let cols := df.cols.map headerNorm
  df.rows.map (fun row =>
    { name := pyStrip (rowName cols row)
      program := pyStrip (seriesGet cols row ["program", "program_list"])
      sdn_type := pyStrip (seriesGet cols row ["sdn_type", "type"])
      dob := pyStrip (seriesGet cols row ["dob", "date_of_birth", "date_of_birth_list"])
      country := pyStrip (seriesGet cols row
        ["country", "primary_country", "nationality", "citizenship_country"])
      citizenship := pyStrip (seriesGet cols row ["citizenship"])
      nationality := pyStrip (seriesGet cols row ["nationality"])
      remarks := pyStrip (seriesGet cols row ["remarks", "comment"]) })

/-! ### app/audit/logger.py -/

/-- The result payload `perform_screening` assembles and hands to
`AuditLogger.log_screening` as `full_result`; `json.dumps` serialization is
modelled by storing the payload value itself. -/
structure Payload where
  query_name : String
  query_dob : String
  query_country : String
  sanctions_matches : List MatchCandidate
  media_results : List MediaRow
  risk_data : JDict
  timestamp : ℕ
deriving DecidableEq, Repr

/-- A row of the `audit_logs` table (`query_timestamp` is the SQL
`CURRENT_TIMESTAMP` at insertion, passed in as an abstract clock value). -/
structure AuditRow where
  id : ℕ
  query_name : String
  query_dob : String
  query_country : String
  sanctions_matches : ℕ
  media_matches : ℕ
  risk_level : String
  risk_score : ℚ
  query_timestamp : ℕ
  result_json : Payload
deriving DecidableEq, Repr

/-- `AuditLogger.log_screening`: one `INSERT` appending one row, with
`len(sanctions_matches)` and `len(media_matches)` counts and the serialized
`full_result`. -/
def logScreening (log : List AuditRow) (ts_now : ℕ)
    (query_name query_dob query_country : String) (sm : List MatchCandidate)
    (mm : List MediaRow) (risk_level : String) (risk_score : ℚ)
    (full_result : Payload) : List AuditRow :=
  log ++ [{ id := log.length + 1, query_name := query_name,
            query_dob := query_dob, query_country := query_country,
            sanctions_matches := sm.length, media_matches := mm.length,
            risk_level := risk_level, risk_score := risk_score,
            query_timestamp := ts_now, result_json := full_result }]

/-- The summary dict `AuditLogger.get_audit_log` returns per row
(every stored column except `result_json`). -/
structure AuditSummary where
  id : ℕ
  query_name : String
  query_dob : String
  query_country : String
  sanctions_matches : ℕ
  media_matches : ℕ
  risk_level : String
  risk_score : ℚ
  query_timestamp : ℕ
deriving DecidableEq, Repr

/-- Projection of a stored row to its `get_audit_log` summary. -/
def auditSummaryOf (r : AuditRow) : AuditSummary :=
  { id := r.id, query_name := r.query_name, query_dob := r.query_dob,
    query_country := r.query_country, sanctions_matches := r.sanctions_matches,
    media_matches := r.media_matches, risk_level := r.risk_level,
    risk_score := r.risk_score, query_timestamp := r.query_timestamp }

/-- `AuditLogger.get_audit_log`: `ORDER BY query_timestamp DESC LIMIT ?`. -/
def getAuditLog (log : List AuditRow) (limit : ℕ) : List AuditSummary :=
  ((log.insertionSort (fun a b => b.query_timestamp ≤ a.query_timestamp)).take limit).map
    auditSummaryOf

/-! ### app/ui/app_streamlit.py — `perform_screening`

The orchestrator.  External collaborators enter as parameters: `scorerFn`
models the `scorer.score_screening` call (`none` = the call raised, taking
the `except` fallback), `tsOpt` models the `rapidfuzz` availability
(`none` = the ImportError branch), `now` the wall clock. -/

/-- Characters kept by `re.split(r"[^A-Z0-9]+", q_up)` (the query is
upper-cased before splitting). -/
def isTokenChar (c : Char) : Bool :=
  ('A' ≤ c && c ≤ 'Z') || ('0' ≤ c && c ≤ '9')

/-- Tokenizer worker: accumulate the current (reversed) run of token
characters, emitting non-empty runs. -/
def tokenizeAux : List Char → List Char → List String
  | cur, [] => if cur = [] then [] else [String.mk cur.reverse]
  | cur, c :: rest =>
      if isTokenChar c then tokenizeAux (c :: cur) rest
      else if cur = [] then tokenizeAux [] rest
      else String.mk cur.reverse :: tokenizeAux [] rest

/-- `[t for t in re.split(r"[^A-Z0-9]+", q_up) if t]`. -/
def tokensOfUp (q_up : String) : List String := tokenizeAux [] q_up.toList

/-- The token list derived from the raw query name
(`q_up = query_name.strip().upper()`). -/
def tokensOfQuery (query_name : String) : List String :=
  tokensOfUp (pyUpper (pyStrip query_name))

/-- `ctry = None if (not query_country or query_country == "Any") else
query_country.strip().upper()`. -/
def ctryParam (query_country : String) : Option String :=
  if query_country = "" || query_country = "Any" then none
  else some (pyUpper (pyStrip query_country))

/-- The stage-1 token-AND `WHERE` clause: `name <> ''`, every token a
substring of `UPPER(name)`, and the optional country equality. -/
def andPred (tokens : List String) (ctry : Option String) (e : Entity) : Bool :=
  e.name ≠ "" && tokens.all (fun t => containsSub (pyUpper e.name) t) &&
    (match ctry with
     | some c => pyUpper e.country = c
     | none => true)

/-- The stage-3 token-OR `WHERE` clause: `name <> ''`, some token a
substring of `UPPER(name)`, and the optional country equality. -/
def orPred (tokens : List String) (ctry : Option String) (e : Entity) : Bool :=
  e.name ≠ "" && tokens.any (fun t => containsSub (pyUpper e.name) t) &&
    (match ctry with
     | some c => pyUpper e.country = c
     | none => true)

/-- The selected pair `(name, COALESCE(country,''))`. -/
def entityRow (e : Entity) : String × String := (e.name, e.country)

/-- The stage-1 token-AND SQL search (`LIMIT 100`). -/
def stage1Rows (store : List Entity) (tokens : List String) (ctry : Option String) :
    List (String × String) :=
  ((store.filter (andPred tokens ctry)).map entityRow).take 100

/-- The stage-3 token-OR fallback SQL search (`LIMIT 100`). -/
def stage3Rows (store : List Entity) (tokens : List String) (ctry : Option String) :
    List (String × String) :=
  ((store.filter (orPred tokens ctry)).map entityRow).take 100

/-- The candidate rows the pipeline goes on to rank: the stage-1 result,
or the stage-3 result when stage 1 came back empty. -/
def candidateRows (store : List Entity) (tokens : List String)
    (ctry : Option String) : List (String × String) :=
  if stage1Rows store tokens ctry = [] then stage3Rows store tokens ctry
  else stage1Rows store tokens ctry

/-- Python tuple `<=` on the `(score, name, country)` triples that
`scored.sort(reverse=True)` compares. -/
def pyTupleLE (a b : ℕ × String × String) : Bool :=
  a.1 < b.1 || (a.1 = b.1 && (a.2.1 < b.2.1 || (a.2.1 = b.2.1 && a.2.2 ≤ b.2.2)))

/-- Step 3 of `perform_screening`: rank the candidate rows.  With
`rapidfuzz` available, score each row with `token_set_ratio(q_up, nm.upper())`,
sort the `(score, nm, c)` triples descending and keep 10; on `ImportError`,
keep the first 10 rows at score 100. -/
def pipeMatches (tsOpt : Option (String → String → ℕ)) (q_up : String)
    (rows : List (String × String)) : List MatchCandidate :=
  match rows with
  | [] => []
  | _ :: _ =>
      match tsOpt with
      | some tsr =>
          let scored := rows.map (fun rc => (tsr q_up (pyUpper rc.1), rc.1, rc.2))
          let sorted := scored.insertionSort (fun a b => pyTupleLE b a = true)
          (sorted.take 10).map (fun x =>
            { entity_name := x.2.1, country := x.2.2, match_score := x.1,
              explanation := "Token-AND SQL + RapidFuzz token_set_ratio = "
                ++ toString x.1 })
      | none =>
          (rows.take 10).map (fun rc =>
            { entity_name := rc.1, country := rc.2, match_score := 100,
              explanation := "Token-AND SQL (no RapidFuzz)" })

/-- `pep_flag = (query_country in ["USA","UK","Canada"])` — the raw
(unstripped, case-sensitive) query country. -/
def pepFlag (query_country : String) : Bool :=
  ["USA", "UK", "Canada"].contains query_country

/-- The simplified formula of `perform_screening`'s `except` branch around
the scorer call: `max(match_score, default 0) * 0.7 / 100.0 * 100` plus
`min(len(media), 5) * 5.0` plus `10.0 if pep else 0.0`, rounded, with
70/40 level thresholds and a 0.7/0.2/0.1 breakdown. -/
def fallbackRisk (ms : List MatchCandidate) (media : List MediaRow)
    (pep : Bool) : JDict :=
  let sanc_part : ℚ :=
    (((ms.map (fun m => m.match_score)).max?.getD 0 : ℕ) : ℚ) * (7/10) / 100 * 100
  let media_part : ℚ := ((min media.length 5 : ℕ) : ℚ) * 5
  let pep_part : ℚ := if pep then 10 else 0
  let composite := pyRoundInt (sanc_part + media_part + pep_part)
  let level :=
    if (70 : ℤ) ≤ composite then "HIGH"
    else if (40 : ℤ) ≤ composite then "MEDIUM"
    else "LOW"
  [("risk_level", JVal.str level),
   ("composite_score", JVal.num (composite : ℚ)),
   ("breakdown", JVal.brk
      ⟨7/10, (pyRoundInt sanc_part : ℚ)⟩
      ⟨2/10, (pyRoundInt media_part : ℚ)⟩
      ⟨1/10, (pyRoundInt pep_part : ℚ)⟩)]

/-- Bridge from a stored media row to the scorer's view of it: `dateParse`
models `datetime.fromisoformat` against the current clock, yielding the day
difference for a parseable date string and `none` for the `except` branch. -/
def mediaItemOf (dateParse : String → Option ℤ) (m : MediaRow) : MediaItem :=
  { tags := m.tags,
    published :=
      if m.published_date = "" then .missing
      else
        match dateParse m.published_date with
        | some d => .daysOld d
        | none => .unparseable }

/-- The real `scorer.score_screening` call as a `scorerFn` argument for
`performScreening` (it never raises on well-formed inputs). -/
def scorerOf (dateParse : String → Option ℤ) :
    List MatchCandidate → List MediaRow → Bool → Option JDict :=
  fun ms media pep => some (scoreScreening ms (media.map (mediaItemOf dateParse)) pep)

/-- `perform_screening` in `app/ui/app_streamlit.py`: the returned payload
(`none` models the early `return None` paths) together with the
`audit_logs` table after the call.  `store` is the `sanctions_entities`
table after step 0's `ensure_db` (which guarantees it is populated and is
why the self-heal of `fuzzy_match` does not reappear here). -/
def performScreening
    (scorerFn : List MatchCandidate → List MediaRow → Bool → Option JDict)
    (tsOpt : Option (String → String → ℕ))
    (store : List Entity) (mstore : List MediaRow) (log : List AuditRow)
    (now : ℕ) (query_name query_dob query_country : String) :
    Option Payload × List AuditRow :=
  let q_raw := pyStrip query_name
  if q_raw = "" then (none, log)
  else
    let q_up := pyUpper q_raw
    let tokens := tokensOfUp q_up
    if tokens = [] then (none, log)
    else
      let ctry := ctryParam query_country
      let rows := candidateRows store tokens ctry
      let ms := pipeMatches tsOpt q_up rows
      let media_results := searchMedia mstore q_raw
      let pep_flag := pepFlag query_country
      let risk_data :=
        (scorerFn ms media_results pep_flag).getD
          (fallbackRisk ms media_results pep_flag)
      let payload : Payload :=
        { query_name := q_raw, query_dob := query_dob,
          query_country := if query_country = "" then "Any" else query_country,
          sanctions_matches := ms, media_results := media_results,
          risk_data := risk_data, timestamp := now }
      (some payload,
       logScreening log now q_raw query_dob
         (if query_country = "" then "Any" else query_country)
         ms media_results (jstr risk_data "risk_level")
         (jnum risk_data "composite_score") payload)

/-! ## Helper lemmas -/

theorem pyRoundInt_le (x : ℚ) (N : ℤ) (h : x ≤ N) : pyRoundInt x ≤ N := by
  unfold pyRoundInt
  have hf : ⌊x⌋ ≤ N := by
    have := Int.floor_mono h
    rwa [Int.floor_intCast] at this
  have key : ¬ (x - ⌊x⌋ < 1/2) → ⌊x⌋ + 1 ≤ N := by
    intro hr
    rcases lt_or_eq_of_le hf with hlt | heq
    · omega
    · exfalso
      apply hr
      have : x - (⌊x⌋ : ℚ) ≤ 0 := by
        have : ((⌊x⌋ : ℤ) : ℚ) = (N : ℚ) := by exact_mod_cast heq
        linarith [this ▸ h]
      linarith
  split_ifs with h1 h2 h3
  · exact hf
  · exact key h1
  · exact hf
  · exact key h1

theorem le_pyRoundInt (x : ℚ) (N : ℤ) (h : (N : ℚ) ≤ x) : N ≤ pyRoundInt x := by
  unfold pyRoundInt
  have hf : N ≤ ⌊x⌋ := Int.le_floor.mpr h
  split_ifs <;> omega

theorem pyRoundInt_abs_sub (x : ℚ) : |(pyRoundInt x : ℚ) - x| ≤ 1/2 := by
  unfold pyRoundInt
  have h1 : (⌊x⌋ : ℚ) ≤ x := Int.floor_le x
  have h2 : x < ⌊x⌋ + 1 := Int.lt_floor_add_one x
  split_ifs with a b c <;> rw [abs_le] <;> constructor <;> push_cast <;> linarith

theorem round2_abs_sub (x : ℚ) : |round2 x - x| ≤ 1/200 := by
  unfold round2
  have h := pyRoundInt_abs_sub (100 * x)
  rw [abs_le] at h ⊢
  obtain ⟨ha, hb⟩ := h
  constructor <;> linarith

theorem round2_nonneg (x : ℚ) (h : 0 ≤ x) : 0 ≤ round2 x := by
  unfold round2
  have hp : (0 : ℤ) ≤ pyRoundInt (100 * x) := le_pyRoundInt _ 0 (by push_cast; linarith)
  have hq : (0 : ℚ) ≤ (pyRoundInt (100 * x) : ℚ) := by exact_mod_cast hp
  linarith

theorem round2_le_100 (x : ℚ) (h : x ≤ 100) : round2 x ≤ 100 := by
  unfold round2
  have hp : pyRoundInt (100 * x) ≤ (10000 : ℤ) := pyRoundInt_le _ 10000 (by push_cast; linarith)
  have : ((pyRoundInt (100 * x) : ℤ) : ℚ) ≤ 10000 := by exact_mod_cast hp
  linarith

theorem abs_max_sub (z a b : ℚ) : |max z a - max z b| ≤ |a - b| := by
  have h0 := abs_nonneg (a - b)
  have h1 := le_abs_self (a - b)
  have h2 := neg_abs_le (a - b)
  rcases max_cases z a with ⟨e1, f1⟩ | ⟨e1, f1⟩ <;>
    rcases max_cases z b with ⟨e2, f2⟩ | ⟨e2, f2⟩ <;>
      rw [e1, e2, abs_le] <;> exact ⟨by linarith, by linarith⟩

theorem abs_min_sub (z a b : ℚ) : |min z a - min z b| ≤ |a - b| := by
  have h0 := abs_nonneg (a - b)
  have h1 := le_abs_self (a - b)
  have h2 := neg_abs_le (a - b)
  rcases min_cases z a with ⟨e1, f1⟩ | ⟨e1, f1⟩ <;>
    rcases min_cases z b with ⟨e2, f2⟩ | ⟨e2, f2⟩ <;>
      rw [e1, e2, abs_le] <;> exact ⟨by linarith, by linarith⟩

theorem abs_clamp_sub (a b : ℚ) :
    |min 100 (max 0 a) - min 100 (max 0 b)| ≤ |a - b| :=
  le_trans (abs_min_sub 100 (max 0 a) (max 0 b)) (abs_max_sub 0 a b)

theorem compositeRaw_nonneg (ms : List MatchCandidate) (media : List MediaItem)
    (pep : Bool) : 0 ≤ compositeRaw ms media pep :=
  le_min (by norm_num) (le_max_left 0 _)

theorem compositeRaw_le_100 (ms : List MatchCandidate) (media : List MediaItem)
    (pep : Bool) : compositeRaw ms media pep ≤ 100 :=
  min_le_left _ _

theorem scoreScreening_fields (ms : List MatchCandidate) (media : List MediaItem)
    (pep : Bool) :
    jnum (scoreScreening ms media pep) "composite_score" =
      round2 (compositeRaw ms media pep) ∧
    jstr (scoreScreening ms media pep) "risk_level" =
      determineRiskLevel (compositeRaw ms media pep) ∧
    jbrk (scoreScreening ms media pep) =
      (⟨weightSanctions, round2 (scoreSanctions ms)⟩,
       ⟨weightMedia, round2 (scoreMedia media)⟩,
       ⟨weightPep, round2 (if pep then (20 : ℚ) else 0)⟩) := by
  refine ⟨?_, ?_, ?_⟩ <;> simp [scoreScreening, jnum, jstr, jbrk, List.lookup]

theorem determineRiskLevel_high_iff (c : ℚ) :
    determineRiskLevel c = "HIGH" ↔ 75 ≤ c := by
  unfold determineRiskLevel riskThresholdHigh riskThresholdMedium
  split_ifs with h1 h2 <;> simp_all

theorem determineRiskLevel_medium_iff (c : ℚ) :
    determineRiskLevel c = "MEDIUM" ↔ 40 ≤ c ∧ c < 75 := by
  unfold determineRiskLevel riskThresholdHigh riskThresholdMedium
  split_ifs with h1 h2
  · simp only [iff_iff_implies_and_implies]
    refine ⟨fun h => absurd h (by decide), fun h => absurd h.2 (by linarith)⟩
  · simp only [true_iff, eq_self_iff_true]
    exact ⟨h2, by linarith [not_le.mp h1]⟩
  · simp only [iff_iff_implies_and_implies]
    refine ⟨fun h => absurd h (by decide), fun h => absurd h.1 h2⟩

theorem determineRiskLevel_low_iff (c : ℚ) :
    determineRiskLevel c = "LOW" ↔ c < 40 := by
  unfold determineRiskLevel riskThresholdHigh riskThresholdMedium
  split_ifs with h1 h2
  · refine ⟨fun h => absurd h (by decide), fun h => absurd h1 (by linarith)⟩
  · refine ⟨fun h => absurd h (by decide), fun h => absurd h2 (by linarith)⟩
  · simp only [true_iff, eq_self_iff_true]
    exact not_le.mp h2

/-! ## Claim theorems -/

/-- C1: for every list of sanctions matches, list of media items and PEP
flag, `score_screening` returns a `composite_score` in `[0, 100]` that
equals, within rounding tolerance (1/100), the clamp of the weighted sum of
the three `{weight, score}` pairs reported in the breakdown (weights
0.6/0.3/0.1), and `risk_level` is the pure threshold function of the
composite value: HIGH iff it is ≥ 75, MEDIUM iff ≥ 40, else LOW. -/
theorem score_screening_clamp_breakdown_risk_level
    (ms : List MatchCandidate) (media : List MediaItem) (pep : Bool) :
    0 ≤ jnum (scoreScreening ms media pep) "composite_score" ∧
    jnum (scoreScreening ms media pep) "composite_score" ≤ 100 ∧
    (jbrk (scoreScreening ms media pep)).1.weight = 6/10 ∧
    (jbrk (scoreScreening ms media pep)).2.1.weight = 3/10 ∧
    (jbrk (scoreScreening ms media pep)).2.2.weight = 1/10 ∧
    |jnum (scoreScreening ms media pep) "composite_score" -
      min 100 (max 0
        ((jbrk (scoreScreening ms media pep)).1.weight *
            (jbrk (scoreScreening ms media pep)).1.score +
          (jbrk (scoreScreening ms media pep)).2.1.weight *
            (jbrk (scoreScreening ms media pep)).2.1.score +
          (jbrk (scoreScreening ms media pep)).2.2.weight *
            (jbrk (scoreScreening ms media pep)).2.2.score))| ≤ 1/100 ∧
    (jstr (scoreScreening ms media pep) "risk_level" = "HIGH" ↔
      75 ≤ compositeRaw ms media pep) ∧
    (jstr (scoreScreening ms media pep) "risk_level" = "MEDIUM" ↔
      40 ≤ compositeRaw ms media pep ∧ compositeRaw ms media pep < 75) ∧
    (jstr (scoreScreening ms media pep) "risk_level" = "LOW" ↔
      compositeRaw ms media pep < 40) := by
  obtain ⟨hc, hl, hb⟩ := scoreScreening_fields ms media pep
  rw [hc, hl, hb]
  refine ⟨round2_nonneg _ (compositeRaw_nonneg ms media pep),
    round2_le_100 _ (compositeRaw_le_100 ms media pep),
    by norm_num [weightSanctions], by norm_num [weightMedia], by norm_num [weightPep],
    ?_, determineRiskLevel_high_iff _, determineRiskLevel_medium_iff _,
    determineRiskLevel_low_iff _⟩
  have t1 := round2_abs_sub (compositeRaw ms media pep)
  have hs := round2_abs_sub (scoreSanctions ms)
  have hm := round2_abs_sub (scoreMedia media)
  have hp := round2_abs_sub (if pep then (20 : ℚ) else 0)
  have t2 : |compositeRaw ms media pep -
      min 100 (max 0
        (weightSanctions * round2 (scoreSanctions ms) +
          weightMedia * round2 (scoreMedia media) +
          weightPep * round2 (if pep then (20 : ℚ) else 0)))| ≤ 1/200 := by
    have step := abs_clamp_sub
      (scoreSanctions ms * weightSanctions + scoreMedia media * weightMedia +
        (if pep then (20 : ℚ) else 0) * weightPep)
      (weightSanctions * round2 (scoreSanctions ms) +
        weightMedia * round2 (scoreMedia media) +
        weightPep * round2 (if pep then (20 : ℚ) else 0))
    rw [compositeRaw]
    refine le_trans step ?_
    rw [abs_le] at hs hm hp ⊢
    constructor <;>
      · simp only [weightSanctions, weightMedia, weightPep]
        nlinarith [hs.1, hs.2, hm.1, hm.2, hp.1, hp.2]
  calc |round2 (compositeRaw ms media pep) -
      min 100 (max 0
        (weightSanctions * round2 (scoreSanctions ms) +
          weightMedia * round2 (scoreMedia media) +
          weightPep * round2 (if pep then (20 : ℚ) else 0)))| ≤
      |round2 (compositeRaw ms media pep) - compositeRaw ms media pep| +
        |compositeRaw ms media pep -
          min 100 (max 0
            (weightSanctions * round2 (scoreSanctions ms) +
              weightMedia * round2 (scoreMedia media) +
              weightPep * round2 (if pep then (20 : ℚ) else 0)))| :=
        abs_sub_le _ _ _
    _ ≤ 1/100 := by linarith

/-- C5: `mediaScore` is the average of `base × recencyDecay` over the items,
capped at 100 (0 for the empty list), with base 50 exactly when the item
carries a sanctions/crime/fraud tag and 30 otherwise; the decay is
`clamp(1 − daysOld/30, 0.1, 1)`, lies in `[0.1, 1]` for every publish date,
is non-increasing in article age, and an item without a parseable publish
date uses the fixed decay 0.5. -/
theorem score_media_average_and_recency_decay :
    scoreMedia [] = 0 ∧
    (∀ items : List MediaItem, items ≠ [] →
      scoreMedia items =
        min 100 ((items.map (fun m => mediaBase m * recencyDecay m.published)).sum
          / (items.length : ℚ))) ∧
    (∀ m : MediaItem,
      (mediaBase m = 50 ↔ ∃ t ∈ m.tags, t ∈ highRiskTags) ∧
      (mediaBase m = 30 ↔ ¬ ∃ t ∈ m.tags, t ∈ highRiskTags)) ∧
    (∀ p : PubDate, 1/10 ≤ recencyDecay p ∧ recencyDecay p ≤ 1) ∧
    (∀ d : ℤ, recencyDecay (.daysOld d) = max (1/10) (min 1 (1 - (d : ℚ) / 30))) ∧
    (∀ d₁ d₂ : ℤ, d₁ ≤ d₂ →
      recencyDecay (.daysOld d₂) ≤ recencyDecay (.daysOld d₁)) ∧
    recencyDecay .missing = 1/2 ∧ recencyDecay .unparseable = 1/2 := by
  refine ⟨rfl, ?_, ?_, ?_, ?_, ?_, rfl, rfl⟩
  · intro items h
    cases items with
    | nil => exact absurd rfl h
    | cons a l => rfl
  · intro m
    cases htag : m.tags.any (fun tag => highRiskTags.contains tag) <;>
      simp [mediaBase, htag]
  · intro p
    cases p with
    | missing => norm_num [recencyDecay]
    | unparseable => norm_num [recencyDecay]
    | daysOld d =>
        exact ⟨le_max_left _ _, max_le (by norm_num) (min_le_left _ _)⟩
  · intro d
    simp [recencyDecay, mediaRecencyFactor]
  · intro d₁ d₂ h
    simp only [recencyDecay]
    refine max_le_max le_rfl (min_le_min le_rfl ?_)
    have hc : (0 : ℚ) < mediaRecencyFactor := by norm_num [mediaRecencyFactor]
    have hd : (d₁ : ℚ) / mediaRecencyFactor ≤ (d₂ : ℚ) / mediaRecencyFactor :=
      (div_le_div_iff_of_pos_right hc).mpr (by exact_mod_cast h)
    linarith

/-- C5 witness: the average formula at a one-item list and the decay
monotonicity at ages 3 ≤ 5. -/
theorem score_media_average_witness :
    scoreMedia [⟨["crime"], PubDate.daysOld 15⟩] =
      min 100 (((([⟨["crime"], PubDate.daysOld 15⟩] : List MediaItem)).map
        (fun m => mediaBase m * recencyDecay m.published)).sum /
        (([⟨["crime"], PubDate.daysOld 15⟩] : List MediaItem).length : ℚ)) ∧
    recencyDecay (PubDate.daysOld 5) ≤ recencyDecay (PubDate.daysOld 3) :=
  ⟨score_media_average_and_recency_decay.2.1 _ (by decide),
   score_media_average_and_recency_decay.2.2.2.2.2.1 3 5 (by norm_num)⟩

theorem mem_filter_map_fst (p : String × List String → Bool) (cat : String)
    (kws : List String) (l : List (String × List String))
    (hmem : (cat, kws) ∈ l) (huniq : ∀ kws2, (cat, kws2) ∈ l → kws2 = kws) :
    cat ∈ (l.filter p).map Prod.fst ↔ p (cat, kws) = true := by
  simp only [List.mem_map, List.mem_filter]
  constructor
  · rintro ⟨⟨c2, k2⟩, ⟨hm, hp⟩, hfst⟩
    simp only at hfst
    subst hfst
    rwa [huniq k2 hm] at hp
  · intro hp
    exact ⟨(cat, kws), ⟨hmem, hp⟩, rfl⟩

theorem tagContent_filter_empty_iff (title content : String) :
    (mediaKeywords.filter
        (fun q => q.2.any (fun kw => wordBoundaryHit kw (fullTextOf title content)))).map
      Prod.fst = [] ↔
    ∀ cat kws, (cat, kws) ∈ mediaKeywords →
      ¬ ∃ kw ∈ kws, wordBoundaryHit kw (fullTextOf title content) = true := by
  rw [List.map_eq_nil_iff, List.filter_eq_nil_iff]
  constructor
  · intro h cat kws hmem hex
    have hq := h _ hmem
    simp only [List.any_eq_true] at hq
    exact hq hex
  · intro h q hq
    have := h q.1 q.2 hq
    simpa [List.any_eq_true] using this

/-- C6: `tag_content` assigns a category exactly when one of that category's
fixed keywords occurs at a word boundary in the lower-cased concatenation of
title and content; several categories may apply at once, and an article with
zero category hits is tagged exactly `["other"]`. -/
theorem tag_content_keyword_boundary (title content : String) :
    (∀ cat kws, (cat, kws) ∈ mediaKeywords →
      (cat ∈ tagContent title content ↔
        ∃ kw ∈ kws, wordBoundaryHit kw (fullTextOf title content) = true)) ∧
    (tagContent title content = ["other"] ↔
      ∀ cat kws, (cat, kws) ∈ mediaKeywords →
        ¬ ∃ kw ∈ kws, wordBoundaryHit kw (fullTextOf title content) = true) ∧
    ("other" ∈ tagContent title content ↔ tagContent title content = ["other"]) := by
  have htc : tagContent title content =
      if (mediaKeywords.filter
            (fun q => q.2.any (fun kw => wordBoundaryHit kw (fullTextOf title content)))).map
          Prod.fst = [] then ["other"]
      else (mediaKeywords.filter
            (fun q => q.2.any (fun kw => wordBoundaryHit kw (fullTextOf title content)))).map
          Prod.fst := rfl
  by_cases hnil : (mediaKeywords.filter
      (fun q => q.2.any (fun kw => wordBoundaryHit kw (fullTextOf title content)))).map
      Prod.fst = []
  · rw [htc, if_pos hnil]
    have hall := (tagContent_filter_empty_iff title content).mp hnil
    refine ⟨?_, ⟨fun _ => hall, fun _ => rfl⟩, by simp⟩
    intro cat kws hmem
    constructor
    · intro hin
      exfalso
      fin_cases hmem <;> simp_all
    · intro hex
      exact absurd hex (hall cat kws hmem)
  · rw [htc, if_neg hnil]
    have hother : "other" ∉ (mediaKeywords.filter
        (fun q => q.2.any (fun kw => wordBoundaryHit kw (fullTextOf title content)))).map
        Prod.fst := by
      intro hin
      obtain ⟨⟨c, k⟩, hmemf, hfst⟩ := List.mem_map.mp hin
      have hmem2 := (List.mem_filter.mp hmemf).1
      simp only at hfst
      subst hfst
      simp [mediaKeywords] at hmem2
    refine ⟨?_, ⟨?_, ?_⟩, ⟨fun hin => absurd hin hother, ?_⟩⟩
    · intro cat kws hmem
      have huniq : ∀ kws2, (cat, kws2) ∈ mediaKeywords → kws2 = kws := by
        fin_cases hmem <;>
          · intro kws2 h2
            simpa [mediaKeywords] using h2
      rw [mem_filter_map_fst _ cat kws mediaKeywords hmem huniq]
      simp [List.any_eq_true]
    · intro heq
      exfalso
      apply hother
      rw [heq]
      simp
    · intro hall
      exact absurd ((tagContent_filter_empty_iff title content).mpr hall) hnil
    · intro heq
      rw [heq]
      simp

/-- C6 witness: the sanctions category at a concrete article whose text hits
the `sanctions` keyword at a word boundary. -/
theorem tag_content_keyword_witness :
    ("sanctions", ["sanctions", "embargo", "blocked", "SDN", "OFAC", "restricted"]) ∈
      mediaKeywords ∧
    ("sanctions" ∈ tagContent "OFAC sanctions update" "nothing here" ↔
      ∃ kw ∈ ["sanctions", "embargo", "blocked", "SDN", "OFAC", "restricted"],
        wordBoundaryHit kw (fullTextOf "OFAC sanctions update" "nothing here") = true) :=
  ⟨by decide,
   (tag_content_keyword_boundary "OFAC sanctions update" "nothing here").1 _ _ (by decide)⟩

/-- C2 counterexample: `normalize_and_store` inserts every row of the feed,
including one whose name normalizes to the empty string — the empty-name row
is stored, not dropped. -/
theorem stored_entity_with_empty_name :
    (normalizeAndStore ⟨["sdn_name", "program"], [["ALPHA CORP", "X"], ["", "Y"]]⟩).map
        Entity.name = ["ALPHA CORP", ""] ∧
    ¬ (∀ e ∈ normalizeAndStore ⟨["sdn_name", "program"],
        [["ALPHA CORP", "X"], ["", "Y"]]⟩, e.name ≠ "") :=
  ⟨by decide, by decide⟩

/-- C2 amended: `normalize_and_store` stores one entity per feed row —
empty-name rows included — and the read paths (`_fetch_rows` and the
pipeline's token-AND search) exclude empty-name rows with their
`name <> ''` filter, so no stored empty-name entity is ever returned as a
candidate. -/
theorem normalize_and_store_amended :
    (∀ df : Df, (normalizeAndStore df).length = df.rows.length) ∧
    (∀ (store : List Entity) (c : Option String) (r : String × String),
      r ∈ fetchRows store c → r.1 ≠ "") ∧
    (∀ (store : List Entity) (tokens : List String) (ctry : Option String)
      (r : String × String), r ∈ stage1Rows store tokens ctry → r.1 ≠ "") := by
  refine ⟨?_, ?_, ?_⟩
  · intro df
    simp [normalizeAndStore]
  · intro store c r hr
    cases c with
    | none =>
        obtain ⟨e, he, rfl⟩ := List.mem_map.mp hr
        have hp := (List.mem_filter.mp he).2
        simpa using hp
    | some cc =>
        simp only [fetchRows] at hr
        split_ifs at hr <;>
          · obtain ⟨e, he, rfl⟩ := List.mem_map.mp hr
            have hp := (List.mem_filter.mp he).2
            simp at hp ⊢
            tauto
  · intro store tokens ctry r hr
    have hr2 := List.take_subset 100 _ hr
    obtain ⟨e, he, rfl⟩ := List.mem_map.mp hr2
    have hp := (List.mem_filter.mp he).2
    simp [andPred, entityRow] at hp ⊢
    exact hp.1.1

/-- C2 amended witness: a one-row feed stores one entity, and a concrete
fetched row has a non-empty name. -/
theorem normalize_and_store_amended_witness :
    (normalizeAndStore ⟨["sdn_name"], [["BETA LLC"]]⟩).length =
      (⟨["sdn_name"], [["BETA LLC"]]⟩ : Df).rows.length ∧
    ("BETA LLC", "RUSSIA") ∈
      fetchRows [⟨"BETA LLC", "", "", "", "RUSSIA", "", "", ""⟩] none ∧
    ("BETA LLC", "RUSSIA").1 ≠ "" :=
  ⟨normalize_and_store_amended.1 _, by decide,
   normalize_and_store_amended.2.1 [⟨"BETA LLC", "", "", "", "RUSSIA", "", "", ""⟩]
     none ("BETA LLC", "RUSSIA") (by decide)⟩

/-- C3 amended: when the stage-1 token-AND search yields at least one row
and the token-OR condition matches at most 100 store rows (so the shared
`LIMIT 100` does not truncate stage 3), the candidate set the pipeline goes
on to rank is a subset of the stage-3 token-OR result for the same query. -/
theorem token_and_subset_token_or (store : List Entity) (tokens : List String)
    (ctry : Option String) (htok : tokens ≠ [])
    (hlim : (store.filter (orPred tokens ctry)).length ≤ 100)
    (h1 : stage1Rows store tokens ctry ≠ []) :
    ∀ r ∈ candidateRows store tokens ctry, r ∈ stage3Rows store tokens ctry := by
  intro r hr
  rw [candidateRows, if_neg h1] at hr
  have hr2 := List.take_subset 100 _ hr
  obtain ⟨e, he, rfl⟩ := List.mem_map.mp hr2
  have hp := (List.mem_filter.mp he).2
  have hor : orPred tokens ctry e = true := by
    simp [andPred] at hp
    simp [orPred]
    obtain ⟨⟨hn, hall⟩, hc⟩ := hp
    refine ⟨⟨hn, ?_⟩, hc⟩
    obtain ⟨t, ht⟩ := List.exists_mem_of_ne_nil tokens htok
    exact ⟨t, ht, hall t ht⟩
  have hmem3 : entityRow e ∈ (store.filter (orPred tokens ctry)).map entityRow :=
    List.mem_map.mpr ⟨e, List.mem_filter.mpr ⟨(List.mem_filter.mp he).1, hor⟩, rfl⟩
  rw [stage3Rows, List.take_of_length_le (by simpa using hlim)]
  exact hmem3

/-- C3 amended witness: a one-entity store where the stage-1 result is
non-empty and contained in the stage-3 result. -/
theorem token_and_subset_token_or_witness :
    (tokensOfQuery "A B" ≠ [] ∧
      (([⟨"AB", "", "", "", "", "", "", ""⟩] : List Entity).filter
        (orPred (tokensOfQuery "A B") none)).length ≤ 100 ∧
      stage1Rows [⟨"AB", "", "", "", "", "", "", ""⟩] (tokensOfQuery "A B") none ≠ []) ∧
    ∀ r ∈ candidateRows [⟨"AB", "", "", "", "", "", "", ""⟩] (tokensOfQuery "A B") none,
      r ∈ stage3Rows [⟨"AB", "", "", "", "", "", "", ""⟩] (tokensOfQuery "A B") none :=
  ⟨⟨by decide, by decide, by decide⟩,
   token_and_subset_token_or [⟨"AB", "", "", "", "", "", "", ""⟩] (tokensOfQuery "A B")
     none (by decide) (by decide) (by decide)⟩

/-- C3 counterexample: with 100 store rows matching only the first token
followed by one row matching both, stage 1 returns that last row while the
stage-3 token-OR query's `LIMIT 100` is exhausted by the first hundred rows —
the ranked candidate set is not a subset of the stage-3 result. -/
theorem token_and_result_escapes_token_or_limit :
    stage1Rows (List.replicate 100 ⟨"A", "", "", "", "", "", "", ""⟩ ++
        [⟨"AB", "", "", "", "", "", "", ""⟩]) (tokensOfQuery "A B") none ≠ [] ∧
    ("AB", "") ∈ candidateRows (List.replicate 100 ⟨"A", "", "", "", "", "", "", ""⟩ ++
        [⟨"AB", "", "", "", "", "", "", ""⟩]) (tokensOfQuery "A B") none ∧
    ("AB", "") ∉ stage3Rows (List.replicate 100 ⟨"A", "", "", "", "", "", "", ""⟩ ++
        [⟨"AB", "", "", "", "", "", "", ""⟩]) (tokensOfQuery "A B") none :=
  ⟨by decide, by decide, by decide⟩

/-- C4 amended: when the RapidFuzz ranking stage of `fuzzy_match` yields zero
candidates at or above the threshold, the function falls back to the
full-text `%query%` SQL search and every surviving row is returned with
score exactly 100 — as a dict with keys `name`/`score`/`country` only, and
in particular with no `explanation` field at all. -/
theorem fuzzy_fallback_score100_no_explanation
    (tsr : String → String → ℕ) (store healed : List Entity)
    (name_query : String) (country : Option String) (top_n threshold : ℕ)
    (hrank : matcherRanked tsr store healed name_query country top_n threshold = []) :
    ∀ d ∈ fuzzyMatch tsr store healed name_query country top_n threshold,
      ("score", JVal.num 100) ∈ d ∧ (∀ v, ("explanation", v) ∉ d) ∧
      ∃ rc ∈ sqlLikeFallback (matcherDb store healed country)
          (pyUpper (pyStrip name_query)) country top_n, d = fallbackDict rc := by
  intro d hd
  simp only [fuzzyMatch] at hd
  split_ifs at hd with h1 h2
  · exact absurd hd (List.not_mem_nil d)
  · exact absurd hd (List.not_mem_nil d)
  · obtain ⟨rc, hrc, rfl⟩ := List.mem_map.mp hd
    refine ⟨by simp [fallbackDict], ?_, rc, hrc, rfl⟩
    intro v hv
    simp [fallbackDict] at hv

/-- C4 amended witness: query "AB" against a store holding only "ZZZAB" with
threshold 70 (`token_set_ratio("AB", "ZZZAB") = 57`, so the ranking stage is
empty) reaches the substring fallback. -/
theorem fuzzy_fallback_witness :
    matcherRanked (fun _ _ => 57) [⟨"ZZZAB", "", "", "", "", "", "", ""⟩] []
      "AB" none 5 70 = [] ∧
    ∀ d ∈ fuzzyMatch (fun _ _ => 57) [⟨"ZZZAB", "", "", "", "", "", "", ""⟩] []
        "AB" none 5 70,
      ("score", JVal.num 100) ∈ d ∧ (∀ v, ("explanation", v) ∉ d) ∧
      ∃ rc ∈ sqlLikeFallback
          (matcherDb [⟨"ZZZAB", "", "", "", "", "", "", ""⟩] [] none)
          (pyUpper (pyStrip "AB")) none 5, d = fallbackDict rc :=
  ⟨by decide,
   fuzzy_fallback_score100_no_explanation (fun _ _ => 57)
     [⟨"ZZZAB", "", "", "", "", "", "", ""⟩] [] "AB" none 5 70 (by decide)⟩

/-- C4 counterexample: a surviving substring-fallback row is returned with
score 100 but with no `explanation` field — in particular not the string
"substring fallback, no similarity scoring applied" (which appears nowhere
in the source). -/
theorem substring_fallback_has_no_explanation :
    fuzzyMatch (fun _ _ => 57) [⟨"ZZZAB", "", "", "", "", "", "", ""⟩] []
        "AB" none 5 70 =
      [[("name", JVal.str "ZZZAB"), ("score", JVal.num 100), ("country", JVal.str "")]] ∧
    ¬ ∃ v, ("explanation", v) ∈
      [("name", JVal.str "ZZZAB"), ("score", JVal.num 100), ("country", JVal.str "")] := by
  constructor
  · decide
  · rintro ⟨v, hv⟩
    simp at hv

theorem performScreening_rejected
    (f : List MatchCandidate → List MediaRow → Bool → Option JDict)
    (tsOpt : Option (String → String → ℕ)) (store : List Entity)
    (mstore : List MediaRow) (log : List AuditRow) (now : ℕ)
    (qn qd qc : String) (h : tokensOfQuery qn = []) :
    performScreening f tsOpt store mstore log now qn qd qc = (none, log) := by
  unfold tokensOfQuery at h
  simp only [performScreening]
  by_cases hq : pyStrip qn = ""
  · rw [if_pos hq]
  · rw [if_neg hq, if_pos h]

theorem performScreening_success
    (f : List MatchCandidate → List MediaRow → Bool → Option JDict)
    (tsOpt : Option (String → String → ℕ)) (store : List Entity)
    (mstore : List MediaRow) (log : List AuditRow) (now : ℕ)
    (qn qd qc : String) (h : tokensOfQuery qn ≠ []) :
    performScreening f tsOpt store mstore log now qn qd qc =
      (let q_raw := pyStrip qn
       let ms := pipeMatches tsOpt (pyUpper q_raw)
         (candidateRows store (tokensOfQuery qn) (ctryParam qc))
       let media := searchMedia mstore q_raw
       let rd := (f ms media (pepFlag qc)).getD (fallbackRisk ms media (pepFlag qc))
       let payload : Payload :=
         ⟨q_raw, qd, (if qc = "" then "Any" else qc), ms, media, rd, now⟩
       (some payload,
        logScreening log now q_raw qd (if qc = "" then "Any" else qc) ms media
          (jstr rd "risk_level") (jnum rd "composite_score") payload)) := by
  have hq : pyStrip qn ≠ "" := by
    intro hq
    apply h
    unfold tokensOfQuery tokensOfUp
    rw [hq]
    rfl
  unfold tokensOfQuery at h
  simp only [performScreening]
  rw [if_neg hq, if_neg h]
  rfl

/-- C7 amended: a query whose name is empty or blank is rejected before the
pipeline runs with no audit entry — but so is any name with no alphanumeric
tokens; `perform_screening` returns `None` exactly when the token list of
the query is empty, and no audit entry is produced in that case. -/
theorem empty_or_tokenless_query_rejected
    (f : List MatchCandidate → List MediaRow → Bool → Option JDict)
    (tsOpt : Option (String → String → ℕ)) (store : List Entity)
    (mstore : List MediaRow) (log : List AuditRow) (now : ℕ) (qn qd qc : String) :
    (pyStrip qn = "" →
      (performScreening f tsOpt store mstore log now qn qd qc).1 = none) ∧
    ((performScreening f tsOpt store mstore log now qn qd qc).1 = none ↔
      tokensOfQuery qn = []) ∧
    ((performScreening f tsOpt store mstore log now qn qd qc).1 = none →
      (performScreening f tsOpt store mstore log now qn qd qc).2 = log) := by
  by_cases ht : tokensOfQuery qn = []
  · rw [performScreening_rejected f tsOpt store mstore log now qn qd qc ht]
    simp [ht]
  · rw [performScreening_success f tsOpt store mstore log now qn qd qc ht]
    refine ⟨?_, by simp [ht], by simp⟩
    intro hq
    exfalso
    apply ht
    unfold tokensOfQuery
    rw [hq]
    rfl

/-- C7 counterexample: the name "!!!" is neither empty nor blank, yet the
call is rejected (returns `None`) with zero audit entries — the empty-name
`ValidationError` is not the only fatal caller-visible failure. -/
theorem tokenless_query_also_rejected :
    pyStrip "!!!" ≠ "" ∧
    (performScreening (fun _ _ _ => none) none [] [] [] 0 "!!!" "" "Any").1 = none ∧
    (performScreening (fun _ _ _ => none) none [] [] [] 0 "!!!" "" "Any").2 = [] :=
  ⟨by decide, by decide, by decide⟩

/-- C7 amended witness: the empty query name is rejected with an unchanged
(empty) audit log. -/
theorem empty_query_rejected_witness :
    pyStrip "" = "" ∧
    (performScreening (fun _ _ _ => none) none [] [] [] 0 "" "" "Any").1 = none ∧
    ((performScreening (fun _ _ _ => none) none [] [] [] 0 "" "" "Any").1 = none ↔
      tokensOfQuery "" = []) ∧
    (performScreening (fun _ _ _ => none) none [] [] [] 0 "" "" "Any").2 = [] :=
  ⟨rfl,
   (empty_or_tokenless_query_rejected (fun _ _ _ => none) none [] [] [] 0 "" "" "Any").1 rfl,
   (empty_or_tokenless_query_rejected (fun _ _ _ => none) none [] [] [] 0 "" "" "Any").2.1,
   (empty_or_tokenless_query_rejected (fun _ _ _ => none) none [] [] [] 0 "" "" "Any").2.2
     ((empty_or_tokenless_query_rejected
        (fun _ _ _ => none) none [] [] [] 0 "" "" "Any").1 rfl)⟩

/-- C9 amended: when the scorer call fails (raises), `perform_screening`
still returns a result whose risk data is computed by the simplified
fallback formula from the available signals — but that result is not marked
as degraded: its dict has no `explanation` field at all and its
`risk_level` is one of the ordinary HIGH/MEDIUM/LOW strings. -/
theorem scorer_failure_uses_fallback_unmarked
    (f : List MatchCandidate → List MediaRow → Bool → Option JDict)
    (tsOpt : Option (String → String → ℕ)) (store : List Entity)
    (mstore : List MediaRow) (log : List AuditRow) (now : ℕ) (qn qd qc : String)
    (htok : tokensOfQuery qn ≠ [])
    (hfail : f (pipeMatches tsOpt (pyUpper (pyStrip qn))
        (candidateRows store (tokensOfQuery qn) (ctryParam qc)))
      (searchMedia mstore (pyStrip qn)) (pepFlag qc) = none) :
    ((performScreening f tsOpt store mstore log now qn qd qc).1.map
        Payload.risk_data) =
      some (fallbackRisk
        (pipeMatches tsOpt (pyUpper (pyStrip qn))
          (candidateRows store (tokensOfQuery qn) (ctryParam qc)))
        (searchMedia mstore (pyStrip qn)) (pepFlag qc)) ∧
    (∀ v, ("explanation", v) ∉ fallbackRisk
        (pipeMatches tsOpt (pyUpper (pyStrip qn))
          (candidateRows store (tokensOfQuery qn) (ctryParam qc)))
        (searchMedia mstore (pyStrip qn)) (pepFlag qc)) ∧
    (jstr (fallbackRisk
        (pipeMatches tsOpt (pyUpper (pyStrip qn))
          (candidateRows store (tokensOfQuery qn) (ctryParam qc)))
        (searchMedia mstore (pyStrip qn)) (pepFlag qc)) "risk_level" = "HIGH" ∨
      jstr (fallbackRisk
        (pipeMatches tsOpt (pyUpper (pyStrip qn))
          (candidateRows store (tokensOfQuery qn) (ctryParam qc)))
        (searchMedia mstore (pyStrip qn)) (pepFlag qc)) "risk_level" = "MEDIUM" ∨
      jstr (fallbackRisk
        (pipeMatches tsOpt (pyUpper (pyStrip qn))
          (candidateRows store (tokensOfQuery qn) (ctryParam qc)))
        (searchMedia mstore (pyStrip qn)) (pepFlag qc)) "risk_level" = "LOW") := by
  rw [performScreening_success f tsOpt store mstore log now qn qd qc htok]
  refine ⟨by simp [hfail], ?_, ?_⟩
  · intro v hv
    simp [fallbackRisk] at hv
  · simp only [fallbackRisk, jstr, List.lookup]
    split_ifs <;> simp

/-- The fallback risk dict at the empty signals: level LOW, score 0. -/
theorem fallbackRisk_nil_false :
    fallbackRisk [] [] false =
      [("risk_level", JVal.str "LOW"), ("composite_score", JVal.num 0),
       ("breakdown", JVal.brk ⟨7/10, 0⟩ ⟨2/10, 0⟩ ⟨1/10, 0⟩)] := by
  have h0 : pyRoundInt 0 = 0 := by norm_num [pyRoundInt]
  simp only [fallbackRisk, List.map_nil, List.max?_nil, Option.getD_none, List.length_nil]
  norm_num [h0]

/-- C9 amended witness: a failing scorer at a concrete query still yields a
result whose risk data is the fallback formula's output. -/
theorem scorer_failure_fallback_witness :
    tokensOfQuery "ALPHA" ≠ [] ∧
    ((performScreening (fun _ _ _ => none) none [] [] [] 0 "ALPHA" "" "Any").1.map
        Payload.risk_data) =
      some (fallbackRisk
        (pipeMatches none (pyUpper (pyStrip "ALPHA"))
          (candidateRows [] (tokensOfQuery "ALPHA") (ctryParam "Any")))
        (searchMedia [] (pyStrip "ALPHA")) (pepFlag "Any")) :=
  ⟨by decide,
   (scorer_failure_uses_fallback_unmarked (fun _ _ _ => none) none [] [] [] 0
      "ALPHA" "" "Any" (by decide) rfl).1⟩

/-- C9 counterexample: with the scorer failing, the returned risk data is
the fallback dict — which carries no `explanation` field and no degraded
marker of any kind, contradicting "marked as degraded in its explanation
text". -/
theorem fallback_result_not_marked_degraded :
    ((performScreening (fun _ _ _ => none) none [] [] [] 0 "ALPHA" "" "Any").1.map
        Payload.risk_data) =
      some [("risk_level", JVal.str "LOW"), ("composite_score", JVal.num 0),
            ("breakdown", JVal.brk ⟨7/10, 0⟩ ⟨2/10, 0⟩ ⟨1/10, 0⟩)] ∧
    ¬ ∃ v, ("explanation", v) ∈
        ([("risk_level", JVal.str "LOW"), ("composite_score", JVal.num 0),
          ("breakdown", JVal.brk ⟨7/10, 0⟩ ⟨2/10, 0⟩ ⟨1/10, 0⟩)] : JDict) := by
  constructor
  · rw [performScreening_success (fun _ _ _ => none) none [] [] [] 0 "ALPHA" "" "Any"
      (by decide)]
    have hM : pipeMatches none (pyUpper (pyStrip "ALPHA"))
        (candidateRows [] (tokensOfQuery "ALPHA") (ctryParam "Any")) = [] := by decide
    have hMd : searchMedia [] (pyStrip "ALPHA") = [] := by decide
    have hP : pepFlag "Any" = false := by decide
    simp only [hM, hMd, hP, Option.getD_none]
    rw [fallbackRisk_nil_false]
    simp
  · rintro ⟨v, hv⟩
    simp at hv

/-- C10: the PEP flag is true exactly when the raw query country string
equals "USA", "UK" or "Canada" (case-sensitive, unmodified — "usa" and
" USA" do not count), and the flag handed to the risk scorer is this
function of the query country alone, the matched entities and media results
entering the scorer call separately. -/
theorem pep_flag_from_raw_country_only
    (f : List MatchCandidate → List MediaRow → Bool → Option JDict)
    (tsOpt : Option (String → String → ℕ)) (store : List Entity)
    (mstore : List MediaRow) (log : List AuditRow) (now : ℕ) (qn qd qc : String)
    (htok : tokensOfQuery qn ≠ []) :
    (pepFlag qc = true ↔ (qc = "USA" ∨ qc = "UK" ∨ qc = "Canada")) ∧
    pepFlag "usa" = false ∧ pepFlag " USA" = false ∧ pepFlag "UK" = true ∧
    ((performScreening f tsOpt store mstore log now qn qd qc).1.map
        Payload.risk_data) =
      some ((f (pipeMatches tsOpt (pyUpper (pyStrip qn))
            (candidateRows store (tokensOfQuery qn) (ctryParam qc)))
          (searchMedia mstore (pyStrip qn)) (pepFlag qc)).getD
        (fallbackRisk
          (pipeMatches tsOpt (pyUpper (pyStrip qn))
            (candidateRows store (tokensOfQuery qn) (ctryParam qc)))
          (searchMedia mstore (pyStrip qn)) (pepFlag qc))) := by
  refine ⟨?_, by decide, by decide, by decide, ?_⟩
  · simp [pepFlag]
  · rw [performScreening_success f tsOpt store mstore log now qn qd qc htok]
    rfl

/-- C10 witness: the flag criterion at the country "Canada" with a concrete
query. -/
theorem pep_flag_witness :
    tokensOfQuery "ALPHA" ≠ [] ∧
    (pepFlag "Canada" = true ↔
      ("Canada" = "USA" ∨ "Canada" = "UK" ∨ "Canada" = "Canada")) :=
  ⟨by decide,
   (pep_flag_from_raw_country_only (fun _ _ _ => none) none [] [] [] 0
      "ALPHA" "" "Canada" (by decide)).1⟩

theorem performScreening_appends_one
    (f : List MatchCandidate → List MediaRow → Bool → Option JDict)
    (tsOpt : Option (String → String → ℕ)) (store : List Entity)
    (mstore : List MediaRow) (log : List AuditRow) (now : ℕ)
    (qn qd qc : String) (h : tokensOfQuery qn ≠ []) :
    ∃ p a, performScreening f tsOpt store mstore log now qn qd qc =
        (some p, log ++ [a]) ∧
      a.result_json = p ∧ a.query_timestamp = now ∧ a.id = log.length + 1 := by
  rw [performScreening_success f tsOpt store mstore log now qn qd qc h]
  exact ⟨_, _, rfl, rfl, rfl, rfl⟩

/-- C8: each successful screening call appends exactly one audit row holding
the full serialized result snapshot, and after three successive calls (at
strictly increasing `CURRENT_TIMESTAMP` values) the listed audit log holds
exactly three entries in reverse-chronological order. -/
theorem three_screenings_reverse_chronological
    (f : List MatchCandidate → List MediaRow → Bool → Option JDict)
    (tsOpt : Option (String → String → ℕ)) (store : List Entity)
    (mstore : List MediaRow) (q1 q2 q3 d1 d2 d3 c1 c2 c3 : String)
    (t1 t2 t3 : ℕ)
    (h1 : tokensOfQuery q1 ≠ []) (h2 : tokensOfQuery q2 ≠ [])
    (h3 : tokensOfQuery q3 ≠ []) (ht12 : t1 < t2) (ht23 : t2 < t3) :
    ∃ p1 p2 p3 a1 a2 a3,
      performScreening f tsOpt store mstore [] t1 q1 d1 c1 = (some p1, [a1]) ∧
      performScreening f tsOpt store mstore [a1] t2 q2 d2 c2 = (some p2, [a1, a2]) ∧
      performScreening f tsOpt store mstore [a1, a2] t3 q3 d3 c3 =
        (some p3, [a1, a2, a3]) ∧
      a1.result_json = p1 ∧ a2.result_json = p2 ∧ a3.result_json = p3 ∧
      a1.query_timestamp = t1 ∧ a2.query_timestamp = t2 ∧ a3.query_timestamp = t3 ∧
      getAuditLog [a1, a2, a3] 100 =
        [auditSummaryOf a3, auditSummaryOf a2, auditSummaryOf a1] := by
  obtain ⟨p1, a1, e1, j1, ts1, id1⟩ :=
    performScreening_appends_one f tsOpt store mstore [] t1 q1 d1 c1 h1
  obtain ⟨p2, a2, e2, j2, ts2, id2⟩ :=
    performScreening_appends_one f tsOpt store mstore [a1] t2 q2 d2 c2 h2
  obtain ⟨p3, a3, e3, j3, ts3, id3⟩ :=
    performScreening_appends_one f tsOpt store mstore [a1, a2] t3 q3 d3 c3 h3
  refine ⟨p1, p2, p3, a1, a2, a3, e1, e2, e3, j1, j2, j3, ts1, ts2, ts3, ?_⟩
  have hsort : List.insertionSort
      (fun x y => y.query_timestamp ≤ x.query_timestamp) [a1, a2, a3] =
      [a3, a2, a1] := by
    have hab : a1.query_timestamp < a2.query_timestamp := by
      rw [ts1, ts2]; exact ht12
    have hbc : a2.query_timestamp < a3.query_timestamp := by
      rw [ts2, ts3]; exact ht23
    simp only [List.insertionSort, List.orderedInsert]
    rw [if_neg (not_le.mpr hbc)]
    simp only [List.orderedInsert]
    rw [if_neg (not_le.mpr (hab.trans hbc)), if_neg (not_le.mpr hab)]
  simp only [getAuditLog]
  rw [hsort]
  rfl

/-- C8 witness: three concrete screening calls at timestamps 1 < 2 < 3. -/
theorem three_screenings_witness :
    tokensOfQuery "A" ≠ [] ∧ (1 : ℕ) < 2 ∧ (2 : ℕ) < 3 ∧
    ∃ p1 p2 p3 a1 a2 a3,
      performScreening (fun _ _ _ => none) none [] [] [] 1 "A" "" "Any" =
        (some p1, [a1]) ∧
      performScreening (fun _ _ _ => none) none [] [] [a1] 2 "B" "" "Any" =
        (some p2, [a1, a2]) ∧
      performScreening (fun _ _ _ => none) none [] [] [a1, a2] 3 "C" "" "Any" =
        (some p3, [a1, a2, a3]) ∧
      a1.result_json = p1 ∧ a2.result_json = p2 ∧ a3.result_json = p3 ∧
      a1.query_timestamp = 1 ∧ a2.query_timestamp = 2 ∧ a3.query_timestamp = 3 ∧
      getAuditLog [a1, a2, a3] 100 =
        [auditSummaryOf a3, auditSummaryOf a2, auditSummaryOf a1] :=
  ⟨by decide, by norm_num, by norm_num,
   three_screenings_reverse_chronological (fun _ _ _ => none) none [] []
     "A" "B" "C" "" "" "" "Any" "Any" "Any" 1 2 3
     (by decide) (by decide) (by decide) (by norm_num) (by norm_num)⟩

end LexiGuard
